import Mathlib

/-!
A shallow embedding of the photo-editor server (`src/server.js`): the Photo
document schema, the MongoDB-backed store modelled as a list of documents,
the `saveBase64Image` utility, and the five principal routes
(`POST /upload-photo`, `GET /my-photos`, `DELETE /photo/:id`,
`PATCH /photo/:id/edit`, `DELETE /photo/:photoId/edit/:editId`), followed by
theorems checking the specification's claims about them.
-/

namespace PhotoEditor

/-- One entry of `editedVersions` in the photo schema:
`{ type: String, url: String, date: Date }` plus the Mongo-assigned `_id`
(ids and dates are modelled as naturals). -/
structure EditRecord where
  «_id» : Nat
  «type» : String
  url : String
  date : Nat
deriving DecidableEq, Repr

/-- The `Photo` document: `owner`, `imageUrl`, `editedVersions`, `createdAt`,
plus the Mongo-assigned `_id`. -/
structure Photo where
  «_id» : Nat
  owner : String
  imageUrl : String
  editedVersions : List EditRecord
  createdAt : Nat
deriving DecidableEq, Repr

/-! ### Base64 decoding, Node style

`Buffer.from(data, 'base64')` never throws: it accepts the standard alphabet
plus the base64url characters `-` and `_`, skips every other character, stops
at the first `=` padding character, and decodes the collected 6-bit values in
groups (a trailing group of 2 or 3 values yields 1 or 2 bytes, a lone
trailing value is dropped). -/

/-- Value of one base64 alphabet character; `none` for characters the decoder
skips. -/
def b64val (c : Char) : Option Nat :=
  if 'A' ≤ c ∧ c ≤ 'Z' then some (c.toNat - 65)
  else if 'a' ≤ c ∧ c ≤ 'z' then some (c.toNat - 97 + 26)
  else if '0' ≤ c ∧ c ≤ '9' then some (c.toNat - 48 + 52)
  else if c = '+' ∨ c = '-' then some 62
  else if c = '/' ∨ c = '_' then some 63
  else none

/-- Pack a list of 6-bit values into 8-bit bytes, groupwise. -/
def packSextets : List Nat → List Nat
  | a :: b :: c :: d :: rest =>
      (a * 4 + b / 16) :: ((b % 16) * 16 + c / 4) :: ((c % 4) * 64 + d)
        :: packSextets rest
  | [a, b, c] => [a * 4 + b / 16, (b % 16) * 16 + c / 4]
  | [a, b] => [a * 4 + b / 16]
  | _ => []

/-- `Buffer.from(s, 'base64')` as a list of byte values. Total: malformed
input yields a (possibly empty) byte list, never an error. -/
def b64decode (s : String) : List Nat :=
  packSextets ((s.data.takeWhile (fun c => c ≠ '=')).filterMap b64val)

/-! ### The data-URL regular expression

`base64Data.match(/^data:(.+);base64,(.+)$/)`. A `.` in a JS regex without
the `s` flag matches any character except the four line terminators. `(.+)`
is greedy, so of all valid decompositions the one with the longest first
group is captured. -/

/-- Characters `.` does not match in a JS regex. -/
def isLineTerm (c : Char) : Bool :=
  c == '\n' || c == '\r' || c == '\u2028' || c == '\u2029'

/-- Every character of the list is matchable by `.`. -/
def dotOk (l : List Char) : Bool :=
  l.all (fun c => !(isLineTerm c))

/-- The literal characters of `;base64,`. -/
def sepChars : List Char := (";base64,").data

/-- Try to split `rest` at position `i` as `(.+);base64,(.+)`. -/
def matchAt (rest : List Char) (i : Nat) : Option (String × String) :=
  let m := rest.take i
  let after := rest.drop i
  if after.take 8 = sepChars ∧ m ≠ [] ∧ dotOk m ∧
      after.drop 8 ≠ [] ∧ dotOk (after.drop 8) then
    some (⟨m⟩, ⟨after.drop 8⟩)
  else none

/-- `s.match(/^data:(.+);base64,(.+)$/)`: the two captured groups, or `none`
when the regex does not match. Greediness of the first `(.+)` picks the valid
split with the longest first group. -/
def dataUrlMatch (s : String) : Option (String × String) :=
  if s.data.take 5 = ("data:").data then
    ((List.range (s.data.drop 5).length.succ).filterMap
      (matchAt (s.data.drop 5))).getLast?
  else none

/-- What `saveBase64Image` produces: the extension hint, the decoded bytes
written to disk, and the returned locator. -/
structure SavedImage where
  ext : String
  bytes : List Nat
  url : String
deriving DecidableEq, Repr

/-- JS `str.split('/')` on the character list of `str`: `''` splits to
`['']`, and every separator starts a new field. -/
def splitSlash : List Char → List (List Char)
  | [] => [[]]
  | c :: cs =>
      match splitSlash cs, c == '/' with
      | r, true => [] :: r
      | [], false => [[c]]
      | h :: t, false => (c :: h) :: t

/-- `matches[1].split('/')[1]` interpolated into a string: an absent index is
`undefined` in JS, which a template literal renders as `"undefined"`. -/
def jsIndex1 (parts : List (List Char)) : String :=
  match parts.get? 1 with
  | some cs => ⟨cs⟩
  | none => "undefined"

/-- `saveBase64Image(base64Data, filename)` from `src/server.js`: match the
data-URL regex (throwing `Invalid base64 string` on failure, modelled as
`Except.error`), take the part of the media type after the slash as the
extension, decode the payload, write the bytes, and return the locator
`/uploads/<filename>.<ext>`. -/
def saveBase64Image (base64Data filename : String) :
    Except String SavedImage :=
  match dataUrlMatch base64Data with
  | none => .error "Invalid base64 string"
  | some (mt, data) =>
      let ext := jsIndex1 (splitSlash mt.data)
      .ok ⟨ext, b64decode data, "/uploads/" ++ filename ++ "." ++ ext⟩

/-! ### The document store and the filesystem

The MongoDB collection is a list of `Photo` documents; `findById`, `save` and
`deleteOne` act on it. The uploads directory is a list of file paths, and
`unlinkSync` failures are driven by an oracle `fail : String → Bool` saying
which unlink calls throw. -/

/-- `Photo.findById(id)`. -/
def findById (store : List Photo) (pid : Nat) : Option Photo :=
  store.find? (fun p => p.«_id» == pid)

/-- `photo.save()`: replace the document with this `_id`. -/
def saveDoc (store : List Photo) (p : Photo) : List Photo :=
  store.map (fun q => if q.«_id» == p.«_id» then p else q)

/-- `photo.deleteOne()`: remove the document with this `_id`. -/
def deleteDoc (store : List Photo) (pid : Nat) : List Photo :=
  store.filter (fun q => !(q.«_id» == pid))

/-- `if (fs.existsSync(p)) fs.unlinkSync(p)`: when the file exists and the
oracle says the unlink throws, the result is an error; otherwise the file (if
present) is gone. -/
def unlinkIfExists (fail : String → Bool) (fs : List String) (p : String) :
    Except Unit (List String) :=
  if fs.contains p then
    if fail p then .error ()
    else .ok (fs.filter (fun q => !(q == p)))
  else .ok fs

/-- `try { ... } catch (e) { console.warn(...) }` around an unlink: a thrown
error is swallowed and the filesystem stays as it was before the attempt. -/
def caught (r : Except Unit (List String)) (fs₀ : List String) : List String :=
  match r with
  | .ok fs => fs
  | .error _ => fs₀

/-- JS truthiness of an optional string body field: `undefined` and `''` are
falsy, so `!type || !base64` rejects absent and empty values alike. -/
def jsFalsy : Option String → Bool
  | none => true
  | some s => s == ""

/-- JS `arr.findIndex(p)`, with `-1` modelled as `none`. -/
def jsFindIndex (p : α → Bool) : List α → Option Nat
  | [] => none
  | a :: l => if p a then some 0 else (jsFindIndex p l).map (· + 1)

/-! ### Route results and status codes -/

/-- Outcome of `POST /upload-photo`. -/
inductive UploadResult
  | noFile
  | ok (photo : Photo)
deriving DecidableEq, Repr

/-- HTTP status of an upload outcome. -/
def UploadResult.status : UploadResult → Nat
  | .noFile => 400
  | .ok _ => 200

/-- Outcome of `DELETE /photo/:id`. -/
inductive DeleteResult
  | forbidden
  | ok
deriving DecidableEq, Repr

/-- HTTP status of a photo-deletion outcome. -/
def DeleteResult.status : DeleteResult → Nat
  | .forbidden => 403
  | .ok => 200

/-- Outcome of `PATCH /photo/:id/edit`. -/
inductive EditResult
  | invalidInput (msg : String)
  | forbidden
  | serverError
  | ok (photo : Photo)
deriving DecidableEq, Repr

/-- HTTP status of an append-edit outcome. -/
def EditResult.status : EditResult → Nat
  | .invalidInput _ => 400
  | .forbidden => 403
  | .serverError => 500
  | .ok _ => 200

/-- Outcome of `DELETE /photo/:photoId/edit/:editId`. -/
inductive RemoveResult
  | forbidden
  | notFound
  | ok (photo : Photo)
deriving DecidableEq, Repr

/-- HTTP status of a remove-edit outcome. -/
def RemoveResult.status : RemoveResult → Nat
  | .forbidden => 403
  | .notFound => 404
  | .ok _ => 200

/-! ### The routes -/

/-- `POST /upload-photo`: 400 if no file was uploaded, else save a new photo
owned by the caller with `imageUrl = /uploads/<filename>` and (by schema
default) an empty `editedVersions`. `freshId` and `now` stand for the
Mongo-assigned id and the `createdAt` default. -/
def uploadPhoto (store : List Photo) (userId : String)
    (file : Option String) (freshId now : Nat) :
    UploadResult × List Photo :=
  match file with
  | none => (.noFile, store)
  | some filename =>
      let newPhoto : Photo :=
        { «_id» := freshId, owner := userId,
          imageUrl := "/uploads/" ++ filename,
          editedVersions := [], createdAt := now }
      (.ok newPhoto, store ++ [newPhoto])

/-- `GET /my-photos`: `Photo.find({ owner: req.user.id })`. -/
def myPhotos (store : List Photo) (userId : String) : List Photo :=
  store.filter (fun p => p.owner == userId)

/-- `DELETE /photo/:id`: 403 when the photo is absent or not owned by the
caller; otherwise best-effort unlink of the original and of every edited
file (each attempt in its own try/catch), then `deleteOne`. -/
def deletePhoto (fail : String → Bool) (store : List Photo)
    (fs : List String) (userId : String) (pid : Nat) :
    DeleteResult × List Photo × List String :=
  match findById store pid with
  | none => (.forbidden, store, fs)
  | some photo =>
      if photo.owner == userId then
        let fs₁ := caught (unlinkIfExists fail fs photo.imageUrl) fs
        let fs₂ := photo.editedVersions.foldl
          (fun acc e => caught (unlinkIfExists fail acc e.url) acc) fs₁
        (.ok, deleteDoc store pid, fs₂)
      else (.forbidden, store, fs)

/-- `photo.editedVersions.push(entry)`. -/
def pushEdit (p : Photo) (e : EditRecord) : Photo :=
  { p with editedVersions := p.editedVersions ++ [e] }

/-- `PATCH /photo/:id/edit`: 400 when `type` or `base64` is falsy; 403 when
the photo is absent or not owned; 400 when `base64` does not start with
`data:`; otherwise `saveBase64Image` runs — its throw is caught by the
route's outer `try/catch`, which answers 500 — and on success a new edit
record is pushed and the photo saved. `filename`, `now` and `freshEid` stand
for the generated file name, `new Date()` and the Mongo-assigned entry id. -/
def patchEdit (store : List Photo) (userId : String) (pid : Nat)
    («type» base64 : Option String) (filename : String) (now freshEid : Nat) :
    EditResult × List Photo :=
  if jsFalsy «type» || jsFalsy base64 then
    (.invalidInput "Missing type or base64 data", store)
  else
    match findById store pid with
    | none => (.forbidden, store)
    | some photo =>
        if photo.owner == userId then
          if (base64.getD "").data.take 5 = ("data:").data then
            match saveBase64Image (base64.getD "") filename with
            | .error _ => (.serverError, store)
            | .ok saved =>
                (.ok (pushEdit photo ⟨freshEid, «type».getD "", saved.url, now⟩),
                 saveDoc store
                   (pushEdit photo ⟨freshEid, «type».getD "", saved.url, now⟩))
          else (.invalidInput "Invalid base64 image data", store)
        else (.forbidden, store)

/-- `photo.editedVersions.splice(idx, 1)`. -/
def spliceOut (p : Photo) (idx : Nat) : Photo :=
  { p with editedVersions := p.editedVersions.take idx ++
      p.editedVersions.drop (idx + 1) }

/-- `photo.editedVersions[idx].url`, with `""` for an out-of-range index
(unreachable after a successful `findIndex`). -/
def urlAt (p : Photo) (idx : Nat) : String :=
  match p.editedVersions.get? idx with
  | some ev => ev.url
  | none => ""

/-- `DELETE /photo/:photoId/edit/:editId`: 403 when the photo is absent or
not owned; 404 when no edited version has the given id; otherwise one
try/catch-guarded unlink of that version's file, `splice(index, 1)`, and
`save`. -/
def removeEdit (fail : String → Bool) (store : List Photo)
    (fs : List String) (userId : String) (photoId editId : Nat) :
    RemoveResult × List Photo × List String :=
  match findById store photoId with
  | none => (.forbidden, store, fs)
  | some photo =>
      if photo.owner == userId then
        match jsFindIndex (fun ev => ev.«_id» == editId)
            photo.editedVersions with
        | none => (.notFound, store, fs)
        | some idx =>
            (.ok (spliceOut photo idx), saveDoc store (spliceOut photo idx),
             caught (unlinkIfExists fail fs (urlAt photo idx)) fs)
      else (.forbidden, store, fs)

/-! ### The structural shape of a data URL, in the specification's words -/

/-- The shape `data:<media-type>;base64,<payload>` with non-empty media type
and payload, as the specification describes it. -/
def isDataUrlShape (s : String) : Prop :=
  ∃ mt payload : String, mt ≠ "" ∧ payload ≠ "" ∧
    s = "data:" ++ mt ++ ";base64," ++ payload

/-! ### Helper lemmas -/

/-- A found document carries the id it was looked up by. -/
theorem findById_id {store : List Photo} {pid : Nat} {p : Photo}
    (h : findById store pid = some p) : p.«_id» = pid := by
  have := List.find?_some h
  simpa using this

/-- After `deleteOne`, the id no longer resolves. -/
theorem findById_deleteDoc (store : List Photo) (pid : Nat) :
    findById (deleteDoc store pid) pid = none := by
  unfold findById deleteDoc
  rw [List.find?_eq_none]
  intro a ha
  have h := (List.mem_filter.mp ha).2
  simpa using h

/-- After `save`, looking the id up yields the saved document. -/
theorem findById_saveDoc {store : List Photo} {pid : Nat} {photo pnew : Photo}
    (hfind : findById store pid = some photo)
    (hid : pnew.«_id» = photo.«_id») :
    findById (saveDoc store pnew) pid = some pnew := by
  induction store with
  | nil => simp [findById] at hfind
  | cons q qs ih =>
      have hpid : photo.«_id» = pid := findById_id hfind
      unfold findById at hfind
      unfold findById saveDoc
      by_cases hq : (q.«_id» == pid) = true
      · have hq' : q = photo := by
          rw [List.find?_cons_of_pos (p := fun x : Photo => x.«_id» == pid) qs hq]
            at hfind
          exact Option.some.inj hfind
        have hbeq : (q.«_id» == pnew.«_id») = true := by
          rw [hq', hid]
          simp
        have hppid : (pnew.«_id» == pid) = true := by
          simp [hid, hpid]
        simp only [List.map_cons]
        rw [if_pos hbeq,
          List.find?_cons_of_pos (p := fun x : Photo => x.«_id» == pid) _ hppid]
      · have hqpn : ¬ ((q.«_id» == pnew.«_id») = true) := by
          rw [hid, hpid]
          exact hq
        rw [List.find?_cons_of_neg (p := fun x : Photo => x.«_id» == pid) qs hq]
          at hfind
        simp only [List.map_cons]
        rw [if_neg hqpn,
          List.find?_cons_of_neg (p := fun x : Photo => x.«_id» == pid) _ hq]
        exact ih hfind

/-- JS `findIndex` misses exactly when no element satisfies the predicate. -/
theorem jsFindIndex_eq_none {α : Type} {p : α → Bool} {l : List α} :
    jsFindIndex p l = none ↔ ∀ x ∈ l, p x = false := by
  induction l with
  | nil => simp [jsFindIndex]
  | cons a l ih =>
      by_cases h : p a <;> simp [jsFindIndex, h, ih]

/-- JS `findIndex` on a list whose first hit sits after the prefix `l₁`. -/
theorem jsFindIndex_append {α : Type} {p : α → Bool} {l₁ l₂ : List α} {e : α}
    (h₁ : ∀ x ∈ l₁, p x = false) (he : p e = true) :
    jsFindIndex p (l₁ ++ e :: l₂) = some l₁.length := by
  induction l₁ with
  | nil => simp [jsFindIndex, he]
  | cons a l ih =>
      have ha := h₁ a (by simp)
      have ih' := ih (fun x hx => h₁ x (by simp [hx]))
      simp [jsFindIndex, ha, ih']

/-- The last element of a list is a member. -/
theorem mem_of_getLast? {α : Type} {l : List α} {a : α}
    (h : l.getLast? = some a) : a ∈ l := by
  obtain ⟨hne, rfl⟩ := List.mem_getLast?_eq_getLast (Option.mem_def.2 h)
  exact List.getLast_mem hne

/-- A successful regex match decomposes the input into the data-URL shape. -/
theorem dataUrlMatch_some {s mt payload : String}
    (h : dataUrlMatch s = some (mt, payload)) :
    mt.data ≠ [] ∧ payload.data ≠ [] ∧
      s.data = ("data:").data ++ mt.data ++ sepChars ++ payload.data := by
  unfold dataUrlMatch at h
  by_cases h5 : s.data.take 5 = ("data:").data
  case neg => simp [h5] at h
  case pos =>
    rw [if_pos h5] at h
    obtain ⟨i, _, hi⟩ := List.mem_filterMap.mp (mem_of_getLast? h)
    unfold matchAt at hi
    by_cases hc : ((s.data.drop 5).drop i).take 8 = sepChars ∧
        (s.data.drop 5).take i ≠ [] ∧ dotOk ((s.data.drop 5).take i) ∧
        ((s.data.drop 5).drop i).drop 8 ≠ [] ∧
        dotOk (((s.data.drop 5).drop i).drop 8)
    case neg =>
      rw [if_neg hc] at hi
      exact absurd hi (by simp)
    case pos =>
      rw [if_pos hc] at hi
      obtain ⟨hsep, hm, _, hp, _⟩ := hc
      have hpair := Option.some.inj hi
      injection hpair with h₁ h₂
      have hmt : mt.data = (s.data.drop 5).take i := by
        rw [← h₁]
      have hpl : payload.data = ((s.data.drop 5).drop i).drop 8 := by
        rw [← h₂]
      refine ⟨by rw [hmt]; exact hm, by rw [hpl]; exact hp, ?_⟩
      conv_lhs => rw [← List.take_append_drop 5 s.data,
        ← List.take_append_drop i (s.data.drop 5),
        ← List.take_append_drop 8 ((s.data.drop 5).drop i)]
      rw [h5, hsep, ← hmt, ← hpl]
      simp [List.append_assoc]

/-- A successful match forces the input to have the data-URL shape. -/
theorem shape_of_match {s mt payload : String}
    (h : dataUrlMatch s = some (mt, payload)) : isDataUrlShape s := by
  obtain ⟨hm, hp, hdec⟩ := dataUrlMatch_some h
  refine ⟨mt, payload, ?_, ?_, ?_⟩
  · intro he
    exact hm (congrArg String.data he)
  · intro he
    exact hp (congrArg String.data he)
  · apply String.ext
    simp only [String.data_append]
    rw [hdec]
    rfl

/-- An input whose first five characters are not `data:` is not data-URL
shaped. -/
theorem not_shape_of_take5 {s : String}
    (h : s.data.take 5 ≠ ("data:").data) : ¬ isDataUrlShape s := by
  rintro ⟨mt, p, _, _, heq⟩
  apply h
  rw [congrArg String.data heq]
  simp only [String.data_append]
  rw [List.append_assoc, List.append_assoc]
  rfl

/-- A matching input starts with `data:`. -/
theorem take5_of_match {s mt payload : String}
    (h : dataUrlMatch s = some (mt, payload)) :
    s.data.take 5 = ("data:").data := by
  obtain ⟨_, _, hdec⟩ := dataUrlMatch_some h
  rw [hdec]
  rw [List.append_assoc, List.append_assoc]
  rfl

/-- Taking the prefix and dropping past one middle element of
`l₁ ++ e :: l₂`. -/
theorem take_drop_middle {α : Type} (l₁ l₂ : List α) (e : α) :
    (l₁ ++ e :: l₂).take l₁.length = l₁
    ∧ (l₁ ++ e :: l₂).drop (l₁.length + 1) = l₂ := by
  refine ⟨List.take_left l₁ (e :: l₂), ?_⟩
  simp

/-! ### The claims -/

/-- C1: for distinct principals A and B, A's `GET /my-photos` never returns
a photo owned by B, and A's append-edit, remove-edit and photo-delete on a
photo owned by B all answer 403 `Not authorized` and leave the photo store —
hence the photo record and its edit history — untouched. -/
theorem C1_ownership_isolation
    (A B : String) (store : List Photo) (fs : List String)
    (pid eid now freshEid : Nat) (p : Photo)
    (ty b64 filename : String) (fail : String → Bool)
    (hAB : A ≠ B)
    (hfind : findById store pid = some p)
    (hown : p.owner = B)
    (hty : ty ≠ "") (hb64 : b64 ≠ "") :
    (∀ q ∈ myPhotos store A, q.owner ≠ B)
    ∧ patchEdit store A pid (some ty) (some b64) filename now freshEid
        = (.forbidden, store)
    ∧ removeEdit fail store fs A pid eid = (.forbidden, store, fs)
    ∧ deletePhoto fail store fs A pid = (.forbidden, store, fs) := by
  have hownA : (p.owner == A) = false := by
    rw [hown]
    simpa using fun h => hAB h.symm
  refine ⟨?_, ?_, ?_, ?_⟩
  · intro q hq
    simp only [myPhotos] at hq
    have hqA : q.owner = A := by simpa using (List.mem_filter.mp hq).2
    rw [hqA]
    exact hAB
  · have h1 : jsFalsy (some ty) = false := by simp [jsFalsy, hty]
    have h2 : jsFalsy (some b64) = false := by simp [jsFalsy, hb64]
    simp [patchEdit, h1, h2, hfind, hownA]
  · simp [removeEdit, hfind, hownA]
  · simp [deletePhoto, hfind, hownA]

/-- Closed instance of C1 at a one-photo store owned by `bob` and a request
from `alice`. -/
theorem C1_ownership_isolation_witness :
    (∀ q ∈ myPhotos [⟨1, "bob", "/uploads/a.png", [], 0⟩] "alice",
        q.owner ≠ "bob")
    ∧ patchEdit [⟨1, "bob", "/uploads/a.png", [], 0⟩] "alice" 1
        (some "crop") (some "data:image/png;base64,aGVsbG8=") "f" 0 2
        = (.forbidden, [⟨1, "bob", "/uploads/a.png", [], 0⟩])
    ∧ removeEdit (fun _ => false) [⟨1, "bob", "/uploads/a.png", [], 0⟩] []
        "alice" 1 5
        = (.forbidden, [⟨1, "bob", "/uploads/a.png", [], 0⟩], [])
    ∧ deletePhoto (fun _ => false) [⟨1, "bob", "/uploads/a.png", [], 0⟩] []
        "alice" 1
        = (.forbidden, [⟨1, "bob", "/uploads/a.png", [], 0⟩], []) :=
  C1_ownership_isolation "alice" "bob" _ [] 1 5 0 2 _ "crop"
    "data:image/png;base64,aGVsbG8=" "f" (fun _ => false)
    (by decide) rfl rfl (by decide) (by decide)

/-- C3: for the photo-level lookup of remove-edit, an absent photo id and an
existing photo owned by someone else both answer the same 403 Forbidden,
while for an owned photo an edit id matching no entry answers the distinct
404 NotFound and the store — hence the edit history — is unchanged. -/
theorem C3_error_code_asymmetry
    (fail : String → Bool) (store : List Photo) (fs : List String)
    (u u' : String) (pid pid' eid : Nat) (p : Photo)
    (hfind : findById store pid = some p)
    (hown : p.owner = u)
    (hmis : u' ≠ u)
    (habsent : findById store pid' = none)
    (hnoedit : ∀ ev ∈ p.editedVersions, ev.«_id» ≠ eid) :
    removeEdit fail store fs u pid' eid = (.forbidden, store, fs)
    ∧ removeEdit fail store fs u' pid eid = (.forbidden, store, fs)
    ∧ RemoveResult.status .forbidden = 403
    ∧ removeEdit fail store fs u pid eid = (.notFound, store, fs)
    ∧ RemoveResult.status .notFound = 404 := by
  have hownu : (p.owner == u) = true := by simp [hown]
  have hownu' : (p.owner == u') = false := by
    rw [hown]
    simpa using fun h => hmis h.symm
  have hidx : jsFindIndex (fun ev => ev.«_id» == eid) p.editedVersions
      = none := by
    rw [jsFindIndex_eq_none]
    intro x hx
    simpa using hnoedit x hx
  refine ⟨?_, ?_, rfl, ?_, rfl⟩
  · simp [removeEdit, habsent]
  · simp [removeEdit, hfind, hownu']
  · simp [removeEdit, hfind, hownu, hidx]

/-- Closed instance of C3: store with one photo of `u` (one edit with id 7),
absent photo id 9, mismatched principal `v`, unmatched edit id 8. -/
theorem C3_error_code_asymmetry_witness :
    removeEdit (fun _ => false)
        [⟨1, "u", "/uploads/a.png", [⟨7, "crop", "/uploads/e.png", 0⟩], 0⟩]
        [] "u" 9 8
      = (.forbidden,
         [⟨1, "u", "/uploads/a.png", [⟨7, "crop", "/uploads/e.png", 0⟩], 0⟩],
         [])
    ∧ removeEdit (fun _ => false)
        [⟨1, "u", "/uploads/a.png", [⟨7, "crop", "/uploads/e.png", 0⟩], 0⟩]
        [] "v" 1 8
      = (.forbidden,
         [⟨1, "u", "/uploads/a.png", [⟨7, "crop", "/uploads/e.png", 0⟩], 0⟩],
         [])
    ∧ RemoveResult.status .forbidden = 403
    ∧ removeEdit (fun _ => false)
        [⟨1, "u", "/uploads/a.png", [⟨7, "crop", "/uploads/e.png", 0⟩], 0⟩]
        [] "u" 1 8
      = (.notFound,
         [⟨1, "u", "/uploads/a.png", [⟨7, "crop", "/uploads/e.png", 0⟩], 0⟩],
         [])
    ∧ RemoveResult.status .notFound = 404 :=
  C3_error_code_asymmetry (fun _ => false) _ [] "u" "v" 1 9 8 _
    rfl rfl (by decide) rfl (by decide)

/-- C6: append-edit with an absent or empty `type` or `base64` answers 400
`Missing type or base64 data`, and every append-edit that answers 400 or 403
leaves the store untouched — validation and authorization short-circuit
before any mutation. -/
theorem C6_append_validation
    (store : List Photo) (u : String) (pid now freshEid : Nat)
    (ty b64 : Option String) (filename : String)
    (hfalsy : jsFalsy ty = true ∨ jsFalsy b64 = true) :
    patchEdit store u pid ty b64 filename now freshEid
      = (.invalidInput "Missing type or base64 data", store)
    ∧ ∀ (ty' b64' : Option String),
        ((patchEdit store u pid ty' b64' filename now freshEid).1.status = 400
          ∨ (patchEdit store u pid ty' b64' filename now freshEid).1.status
              = 403) →
        (patchEdit store u pid ty' b64' filename now freshEid).2 = store := by
  constructor
  · rcases hfalsy with h | h <;> simp [patchEdit, h]
  · intro ty' b64' hr
    unfold patchEdit at hr ⊢
    by_cases h1 : (jsFalsy ty' || jsFalsy b64') = true
    · rw [if_pos h1]
    · rw [if_neg h1] at hr ⊢
      cases hf : findById store pid with
      | none => rfl
      | some photo =>
          rw [hf] at hr
          by_cases h2 : (photo.owner == u) = true
          · by_cases h3 : (b64'.getD "").data.take 5 = ("data:").data
            · cases hs : saveBase64Image (b64'.getD "") filename with
              | error e => simp [h2, h3, hs, EditResult.status] at hr
              | ok saved => simp [h2, h3, hs, EditResult.status] at hr
            · simp [h2, h3]
          · simp [h2]

/-- Closed instance of C6: missing `base64` answers 400, and 400/403
outcomes leave a one-photo store unchanged. -/
theorem C6_append_validation_witness :
    patchEdit [⟨1, "u", "/uploads/a.png", [], 0⟩] "u" 1 (some "crop") none
        "f" 0 2
      = (.invalidInput "Missing type or base64 data",
         [⟨1, "u", "/uploads/a.png", [], 0⟩])
    ∧ ∀ (ty' b64' : Option String),
        ((patchEdit [⟨1, "u", "/uploads/a.png", [], 0⟩] "u" 1 ty' b64' "f" 0
            2).1.status = 400
          ∨ (patchEdit [⟨1, "u", "/uploads/a.png", [], 0⟩] "u" 1 ty' b64' "f"
              0 2).1.status = 403) →
        (patchEdit [⟨1, "u", "/uploads/a.png", [], 0⟩] "u" 1 ty' b64' "f" 0
            2).2 = [⟨1, "u", "/uploads/a.png", [], 0⟩] :=
  C6_append_validation _ "u" 1 0 2 (some "crop") none "f" (Or.inr rfl)

/-- C7: the outcome and the stored records of photo-delete and remove-edit
do not depend on which unlink calls fail; an owned photo's delete succeeds,
and afterwards the id no longer resolves, so a repeated delete by anyone
answers 403 — whatever the cleanup oracle did. -/
theorem C7_cleanup_best_effort
    (fail fail₂ : String → Bool) (store : List Photo) (fs fs₂ : List String)
    (u u' : String) (pid eid : Nat) (p : Photo)
    (hfind : findById store pid = some p)
    (hown : p.owner = u) :
    (∀ f g : String → Bool,
        (deletePhoto f store fs u pid).1 = (deletePhoto g store fs u pid).1
        ∧ (deletePhoto f store fs u pid).2.1
            = (deletePhoto g store fs u pid).2.1)
    ∧ (∀ f g : String → Bool,
        (removeEdit f store fs u pid eid).1
            = (removeEdit g store fs u pid eid).1
        ∧ (removeEdit f store fs u pid eid).2.1
            = (removeEdit g store fs u pid eid).2.1)
    ∧ (deletePhoto fail store fs u pid).1 = .ok
    ∧ findById (deletePhoto fail store fs u pid).2.1 pid = none
    ∧ deletePhoto fail₂ (deletePhoto fail store fs u pid).2.1 fs₂ u' pid
        = (.forbidden, (deletePhoto fail store fs u pid).2.1, fs₂) := by
  have hownu : (p.owner == u) = true := by simp [hown]
  have hstore : ∀ f : String → Bool,
      deletePhoto f store fs u pid
        = (.ok, deleteDoc store pid,
           (deletePhoto f store fs u pid).2.2) := by
    intro f
    simp [deletePhoto, hfind, hownu]
  refine ⟨?_, ?_, ?_, ?_, ?_⟩
  · intro f g
    rw [hstore f, hstore g]
    exact ⟨rfl, rfl⟩
  · intro f g
    unfold removeEdit
    rw [hfind]
    simp only [hownu, if_true]
    cases jsFindIndex (fun ev => ev.«_id» == eid) p.editedVersions with
    | none => exact ⟨rfl, rfl⟩
    | some idx => exact ⟨rfl, rfl⟩
  · rw [hstore fail]
  · rw [hstore fail]
    exact findById_deleteDoc store pid
  · rw [hstore fail]
    simp [deletePhoto, findById_deleteDoc]

/-- Closed instance of C7: one owned photo with one edited version, a
cleanup oracle that always fails versus one that never fails. -/
theorem C7_cleanup_best_effort_witness :
    (∀ f g : String → Bool,
        (deletePhoto f
            [⟨1, "u", "/uploads/a.png", [⟨7, "crop", "/uploads/e.png", 0⟩],
              0⟩] ["/uploads/a.png"] "u" 1).1
          = (deletePhoto g
              [⟨1, "u", "/uploads/a.png", [⟨7, "crop", "/uploads/e.png", 0⟩],
                0⟩] ["/uploads/a.png"] "u" 1).1
        ∧ (deletePhoto f
            [⟨1, "u", "/uploads/a.png", [⟨7, "crop", "/uploads/e.png", 0⟩],
              0⟩] ["/uploads/a.png"] "u" 1).2.1
          = (deletePhoto g
              [⟨1, "u", "/uploads/a.png", [⟨7, "crop", "/uploads/e.png", 0⟩],
                0⟩] ["/uploads/a.png"] "u" 1).2.1)
    ∧ (∀ f g : String → Bool,
        (removeEdit f
            [⟨1, "u", "/uploads/a.png", [⟨7, "crop", "/uploads/e.png", 0⟩],
              0⟩] ["/uploads/a.png"] "u" 1 7).1
          = (removeEdit g
              [⟨1, "u", "/uploads/a.png", [⟨7, "crop", "/uploads/e.png", 0⟩],
                0⟩] ["/uploads/a.png"] "u" 1 7).1
        ∧ (removeEdit f
            [⟨1, "u", "/uploads/a.png", [⟨7, "crop", "/uploads/e.png", 0⟩],
              0⟩] ["/uploads/a.png"] "u" 1 7).2.1
          = (removeEdit g
              [⟨1, "u", "/uploads/a.png", [⟨7, "crop", "/uploads/e.png", 0⟩],
                0⟩] ["/uploads/a.png"] "u" 1 7).2.1)
    ∧ (deletePhoto (fun _ => true)
        [⟨1, "u", "/uploads/a.png", [⟨7, "crop", "/uploads/e.png", 0⟩], 0⟩]
        ["/uploads/a.png"] "u" 1).1 = .ok
    ∧ findById (deletePhoto (fun _ => true)
        [⟨1, "u", "/uploads/a.png", [⟨7, "crop", "/uploads/e.png", 0⟩], 0⟩]
        ["/uploads/a.png"] "u" 1).2.1 1 = none
    ∧ deletePhoto (fun _ => false)
        (deletePhoto (fun _ => true)
          [⟨1, "u", "/uploads/a.png", [⟨7, "crop", "/uploads/e.png", 0⟩], 0⟩]
          ["/uploads/a.png"] "u" 1).2.1 [] "u" 1
        = (.forbidden,
           (deletePhoto (fun _ => true)
             [⟨1, "u", "/uploads/a.png",
               [⟨7, "crop", "/uploads/e.png", 0⟩], 0⟩]
             ["/uploads/a.png"] "u" 1).2.1, []) :=
  C7_cleanup_best_effort (fun _ => true) (fun _ => false) _ _ [] "u" "u" 1 7
    _ rfl rfl

/-- C2: on a photo whose history is `l₁ ++ e :: l₂` (with `e` the first
entry carrying `eid`), a successful append places the new record at the end
leaving `l₁ ++ e :: l₂` intact, and removing `eid` yields exactly
`l₁ ++ l₂`, preserving the order of the remaining entries. -/
theorem C2_edit_history_order
    (store : List Photo) (u : String) (pid eid now freshEid : Nat)
    (photo : Photo) (ty b64 filename : String) (saved : SavedImage)
    (l₁ l₂ : List EditRecord) (e : EditRecord)
    (fail : String → Bool) (fs : List String)
    (hfind : findById store pid = some photo)
    (hown : photo.owner = u)
    (hty : ty ≠ "")
    (hsave : saveBase64Image b64 filename = .ok saved)
    (hhist : photo.editedVersions = l₁ ++ e :: l₂)
    (he : e.«_id» = eid)
    (hl₁ : ∀ x ∈ l₁, x.«_id» ≠ eid) :
    (∃ store₂,
        patchEdit store u pid (some ty) (some b64) filename now freshEid
          = (.ok (pushEdit photo ⟨freshEid, ty, saved.url, now⟩), store₂)
        ∧ (pushEdit photo ⟨freshEid, ty, saved.url, now⟩).editedVersions
            = photo.editedVersions ++ [⟨freshEid, ty, saved.url, now⟩])
    ∧ (∃ p₃ store₃ fs₃,
        removeEdit fail store fs u pid eid = (.ok p₃, store₃, fs₃)
        ∧ p₃.editedVersions = l₁ ++ l₂) := by
  have hownu : (photo.owner == u) = true := by simp [hown]
  have h5 : b64.data.take 5 = ("data:").data := by
    by_contra h
    have hnone : dataUrlMatch b64 = none := by
      unfold dataUrlMatch
      rw [if_neg h]
    unfold saveBase64Image at hsave
    rw [hnone] at hsave
    cases hsave
  have hb64 : b64 ≠ "" := by
    intro h
    subst h
    exact absurd h5 (by decide)
  constructor
  · refine ⟨saveDoc store (pushEdit photo ⟨freshEid, ty, saved.url, now⟩),
      ?_, rfl⟩
    have h1 : jsFalsy (some ty) = false := by simp [jsFalsy, hty]
    have h2 : jsFalsy (some b64) = false := by simp [jsFalsy, hb64]
    unfold patchEdit
    rw [h1, h2]
    rw [if_neg (by simp)]
    rw [hfind]
    simp only [Option.getD_some, hownu, if_true, h5, eq_self_iff_true, hsave]
  · have hidx : jsFindIndex (fun ev => ev.«_id» == eid) photo.editedVersions
        = some l₁.length := by
      rw [hhist]
      exact jsFindIndex_append
        (fun x hx => by simpa using hl₁ x hx) (by simp [he])
    refine ⟨spliceOut photo l₁.length,
      saveDoc store (spliceOut photo l₁.length),
      caught (unlinkIfExists fail fs (urlAt photo l₁.length)) fs, ?_, ?_⟩
    · unfold removeEdit
      rw [hfind]
      simp only [hownu, if_true, hidx]
    · unfold spliceOut
      simp only [hhist]
      have h := take_drop_middle l₁ l₂ e
      rw [h.1, h.2]

/-- Closed instance of C2: history `[e₁, e₂, e₃]`, appending a new entry and
removing `e₂`. -/
theorem C2_edit_history_order_witness :
    (∃ store₂,
        patchEdit
            [⟨1, "u", "/uploads/a.png",
              [⟨1, "crop", "/uploads/e1.png", 0⟩,
               ⟨2, "blur", "/uploads/e2.png", 0⟩,
               ⟨3, "rotate", "/uploads/e3.png", 0⟩], 0⟩]
            "u" 1 (some "gray") (some "data:image/png;base64,aGVsbG8=") "f"
            9 4
          = (.ok (pushEdit
              ⟨1, "u", "/uploads/a.png",
                [⟨1, "crop", "/uploads/e1.png", 0⟩,
                 ⟨2, "blur", "/uploads/e2.png", 0⟩,
                 ⟨3, "rotate", "/uploads/e3.png", 0⟩], 0⟩
              ⟨4, "gray", "/uploads/f.png", 9⟩), store₂)
        ∧ (pushEdit
            ⟨1, "u", "/uploads/a.png",
              [⟨1, "crop", "/uploads/e1.png", 0⟩,
               ⟨2, "blur", "/uploads/e2.png", 0⟩,
               ⟨3, "rotate", "/uploads/e3.png", 0⟩], 0⟩
            ⟨4, "gray", "/uploads/f.png", 9⟩).editedVersions
            = [⟨1, "crop", "/uploads/e1.png", 0⟩,
               ⟨2, "blur", "/uploads/e2.png", 0⟩,
               ⟨3, "rotate", "/uploads/e3.png", 0⟩]
              ++ [⟨4, "gray", "/uploads/f.png", 9⟩])
    ∧ (∃ p₃ store₃ fs₃,
        removeEdit (fun _ => false)
            [⟨1, "u", "/uploads/a.png",
              [⟨1, "crop", "/uploads/e1.png", 0⟩,
               ⟨2, "blur", "/uploads/e2.png", 0⟩,
               ⟨3, "rotate", "/uploads/e3.png", 0⟩], 0⟩]
            [] "u" 1 2
          = (.ok p₃, store₃, fs₃)
        ∧ p₃.editedVersions
            = [⟨1, "crop", "/uploads/e1.png", 0⟩]
              ++ [⟨3, "rotate", "/uploads/e3.png", 0⟩]) :=
  C2_edit_history_order _ "u" 1 2 9 4 _ "gray"
    "data:image/png;base64,aGVsbG8=" "f"
    ⟨"png", [104, 101, 108, 108, 111], "/uploads/f.png"⟩
    [⟨1, "crop", "/uploads/e1.png", 0⟩]
    [⟨3, "rotate", "/uploads/e3.png", 0⟩]
    ⟨2, "blur", "/uploads/e2.png", 0⟩
    (fun _ => false) [] rfl rfl (by decide) rfl rfl rfl (by decide)

/-- C8: an upload without a file answers 400 and stores nothing; an upload
with a file saves a photo owned by the caller with empty edit history, and
an immediately following listing for that principal contains the new photo
exactly once. -/
theorem C8_create_then_list
    (store : List Photo) (u filename : String) (freshId now : Nat)
    (hfresh : ∀ q ∈ store, q.«_id» ≠ freshId) :
    uploadPhoto store u none freshId now = (.noFile, store)
    ∧ UploadResult.status .noFile = 400
    ∧ ∃ np store₂,
        uploadPhoto store u (some filename) freshId now = (.ok np, store₂)
        ∧ np.owner = u ∧ np.editedVersions = []
        ∧ (myPhotos store₂ u).count np = 1 := by
  refine ⟨rfl, rfl, ⟨_, _, rfl, rfl, rfl, ?_⟩⟩
  unfold myPhotos
  rw [List.filter_append]
  rw [List.count_append]
  have h0 : (store.filter (fun p => p.owner == u)).count
      (⟨freshId, u, "/uploads/" ++ filename, [], now⟩ : Photo) = 0 := by
    rw [List.count_eq_zero]
    intro hmem
    have hin := List.mem_of_mem_filter hmem
    exact hfresh _ hin rfl
  rw [h0]
  simp

/-- Closed instance of C8 on a store already holding someone else's photo. -/
theorem C8_create_then_list_witness :
    uploadPhoto [⟨1, "bob", "/uploads/b.png", [], 0⟩] "u" none 2 5
      = (.noFile, [⟨1, "bob", "/uploads/b.png", [], 0⟩])
    ∧ UploadResult.status .noFile = 400
    ∧ ∃ np store₂,
        uploadPhoto [⟨1, "bob", "/uploads/b.png", [], 0⟩] "u" (some "x.png")
            2 5
          = (.ok np, store₂)
        ∧ np.owner = "u" ∧ np.editedVersions = []
        ∧ (myPhotos store₂ "u").count np = 1 :=
  C8_create_then_list _ "u" "x.png" 2 5 (by decide)

/-- C10: a successful append-edit or remove-edit changes only
`editedVersions`: the resulting photo keeps the original `_id`, `owner`,
`imageUrl` and `createdAt`, and is what the updated store holds under the
same id. -/
theorem C10_frame_only_history
    (store : List Photo) (u : String) (pid eid now freshEid : Nat)
    (photo : Photo) (ty b64 : Option String) (filename : String)
    (fail : String → Bool) (fs : List String)
    (hfind : findById store pid = some photo) :
    (∀ p₂ store₂,
        patchEdit store u pid ty b64 filename now freshEid
          = (.ok p₂, store₂) →
        p₂.«_id» = photo.«_id» ∧ p₂.owner = photo.owner
        ∧ p₂.imageUrl = photo.imageUrl ∧ p₂.createdAt = photo.createdAt
        ∧ findById store₂ pid = some p₂)
    ∧ (∀ p₃ store₃ fs₃,
        removeEdit fail store fs u pid eid = (.ok p₃, store₃, fs₃) →
        p₃.«_id» = photo.«_id» ∧ p₃.owner = photo.owner
        ∧ p₃.imageUrl = photo.imageUrl ∧ p₃.createdAt = photo.createdAt
        ∧ findById store₃ pid = some p₃) := by
  constructor
  · intro p₂ store₂ heq
    unfold patchEdit at heq
    by_cases h1 : (jsFalsy ty || jsFalsy b64) = true
    · rw [if_pos h1] at heq
      simp at heq
    · rw [if_neg h1] at heq
      rw [hfind] at heq
      by_cases h2 : (photo.owner == u) = true
      · by_cases h3 : (b64.getD "").data.take 5 = ("data:").data
        · cases hs : saveBase64Image (b64.getD "") filename with
          | error e => simp [h2, h3, hs] at heq
          | ok saved =>
              simp only [h2, if_true, h3, if_pos, hs, Prod.mk.injEq,
                EditResult.ok.injEq] at heq
              obtain ⟨hp₂, hst⟩ := heq
              subst hp₂
              subst hst
              exact ⟨rfl, rfl, rfl, rfl, findById_saveDoc hfind rfl⟩
        · simp [h2, h3] at heq
      · simp [h2] at heq
  · intro p₃ store₃ fs₃ heq
    unfold removeEdit at heq
    rw [hfind] at heq
    by_cases h2 : (photo.owner == u) = true
    · cases hidx : jsFindIndex (fun ev => ev.«_id» == eid)
          photo.editedVersions with
      | none => simp [h2, hidx] at heq
      | some idx =>
          simp only [h2, if_true, hidx, Prod.mk.injEq,
            RemoveResult.ok.injEq] at heq
          obtain ⟨hp₃, hst, _⟩ := heq
          subst hp₃
          subst hst
          exact ⟨rfl, rfl, rfl, rfl, findById_saveDoc hfind rfl⟩
    · simp [h2] at heq

/-- Closed instance of C10: one successful append and one successful removal
on a one-photo store. -/
theorem C10_frame_only_history_witness :
    ((pushEdit ⟨1, "u", "/uploads/a.png", [⟨7, "crop", "/uploads/e.png", 0⟩],
        3⟩ ⟨9, "gray", "/uploads/f.png", 5⟩).«_id» = 1
      ∧ (pushEdit ⟨1, "u", "/uploads/a.png",
          [⟨7, "crop", "/uploads/e.png", 0⟩], 3⟩
          ⟨9, "gray", "/uploads/f.png", 5⟩).owner = "u"
      ∧ (pushEdit ⟨1, "u", "/uploads/a.png",
          [⟨7, "crop", "/uploads/e.png", 0⟩], 3⟩
          ⟨9, "gray", "/uploads/f.png", 5⟩).imageUrl = "/uploads/a.png"
      ∧ (pushEdit ⟨1, "u", "/uploads/a.png",
          [⟨7, "crop", "/uploads/e.png", 0⟩], 3⟩
          ⟨9, "gray", "/uploads/f.png", 5⟩).createdAt = 3
      ∧ findById (saveDoc
          [⟨1, "u", "/uploads/a.png", [⟨7, "crop", "/uploads/e.png", 0⟩], 3⟩]
          (pushEdit ⟨1, "u", "/uploads/a.png",
            [⟨7, "crop", "/uploads/e.png", 0⟩], 3⟩
            ⟨9, "gray", "/uploads/f.png", 5⟩)) 1
        = some (pushEdit ⟨1, "u", "/uploads/a.png",
            [⟨7, "crop", "/uploads/e.png", 0⟩], 3⟩
            ⟨9, "gray", "/uploads/f.png", 5⟩))
    ∧ ((spliceOut ⟨1, "u", "/uploads/a.png",
          [⟨7, "crop", "/uploads/e.png", 0⟩], 3⟩ 0).«_id» = 1
      ∧ (spliceOut ⟨1, "u", "/uploads/a.png",
          [⟨7, "crop", "/uploads/e.png", 0⟩], 3⟩ 0).owner = "u"
      ∧ (spliceOut ⟨1, "u", "/uploads/a.png",
          [⟨7, "crop", "/uploads/e.png", 0⟩], 3⟩ 0).imageUrl
          = "/uploads/a.png"
      ∧ (spliceOut ⟨1, "u", "/uploads/a.png",
          [⟨7, "crop", "/uploads/e.png", 0⟩], 3⟩ 0).createdAt = 3
      ∧ findById (saveDoc
          [⟨1, "u", "/uploads/a.png", [⟨7, "crop", "/uploads/e.png", 0⟩], 3⟩]
          (spliceOut ⟨1, "u", "/uploads/a.png",
            [⟨7, "crop", "/uploads/e.png", 0⟩], 3⟩ 0)) 1
        = some (spliceOut ⟨1, "u", "/uploads/a.png",
            [⟨7, "crop", "/uploads/e.png", 0⟩], 3⟩ 0)) :=
  ⟨(C10_frame_only_history
      [⟨1, "u", "/uploads/a.png", [⟨7, "crop", "/uploads/e.png", 0⟩], 3⟩]
      "u" 1 7 5 9 _ (some "gray")
      (some "data:image/png;base64,aGVsbG8=") "f" (fun _ => false) []
      rfl).1 _ _ rfl,
   (C10_frame_only_history
      [⟨1, "u", "/uploads/a.png", [⟨7, "crop", "/uploads/e.png", 0⟩], 3⟩]
      "u" 1 7 5 9 _ (some "gray")
      (some "data:image/png;base64,aGVsbG8=") "f" (fun _ => false) []
      rfl).2 _ _ _ rfl⟩

/-- C9: a data URL whose media type has no slash, such as
`data:png;base64,AAAA`, is accepted: `split('/')[1]` is `undefined`, so the
edit succeeds and the stored locator ends in `.undefined`. -/
theorem C9_missing_slash_undefined_ext
    (store : List Photo) (u : String) (pid now freshEid : Nat)
    (photo : Photo) (ty filename : String)
    (hfind : findById store pid = some photo)
    (hown : photo.owner = u)
    (hty : ty ≠ "") :
    saveBase64Image "data:png;base64,AAAA" filename
      = .ok ⟨"undefined", [0, 0, 0], "/uploads/" ++ filename ++ ".undefined"⟩
    ∧ patchEdit store u pid (some ty) (some "data:png;base64,AAAA") filename
        now freshEid
      = (.ok (pushEdit photo
          ⟨freshEid, ty, "/uploads/" ++ filename ++ ".undefined", now⟩),
         saveDoc store (pushEdit photo
          ⟨freshEid, ty, "/uploads/" ++ filename ++ ".undefined", now⟩)) := by
  have hownu : (photo.owner == u) = true := by simp [hown]
  have hdot : ("." ++ "undefined" : String) = ".undefined" := rfl
  have hsave : saveBase64Image "data:png;base64,AAAA" filename
      = .ok ⟨"undefined", [0, 0, 0],
          "/uploads/" ++ filename ++ ".undefined"⟩ := by
    have hassoc : ∀ a b c : String, (a ++ b) ++ c = a ++ (b ++ c) :=
      fun a b c => String.ext (by simp [String.data_append, List.append_assoc])
    unfold saveBase64Image
    rw [show dataUrlMatch "data:png;base64,AAAA" = some ("png", "AAAA")
      from rfl]
    show Except.ok
        (⟨"undefined", [0, 0, 0],
          "/uploads/" ++ filename ++ "." ++ "undefined"⟩ : SavedImage) = _
    rw [hassoc, hdot]
  refine ⟨hsave, ?_⟩
  have h1 : jsFalsy (some ty) = false := by simp [jsFalsy, hty]
  unfold patchEdit
  rw [h1]
  rw [if_neg (by simp [jsFalsy])]
  rw [hfind]
  simp only [Option.getD_some, hownu, if_true]
  rw [if_pos (by decide), hsave]

/-- Closed instance of C9 on a one-photo store with filename `f`. -/
theorem C9_missing_slash_undefined_ext_witness :
    saveBase64Image "data:png;base64,AAAA" "f"
      = .ok ⟨"undefined", [0, 0, 0], "/uploads/" ++ "f" ++ ".undefined"⟩
    ∧ patchEdit [⟨1, "u", "/uploads/a.png", [], 0⟩] "u" 1 (some "crop")
        (some "data:png;base64,AAAA") "f" 4 2
      = (.ok (pushEdit ⟨1, "u", "/uploads/a.png", [], 0⟩
          ⟨2, "crop", "/uploads/" ++ "f" ++ ".undefined", 4⟩),
         saveDoc [⟨1, "u", "/uploads/a.png", [], 0⟩]
           (pushEdit ⟨1, "u", "/uploads/a.png", [], 0⟩
             ⟨2, "crop", "/uploads/" ++ "f" ++ ".undefined", 4⟩)) :=
  C9_missing_slash_undefined_ext _ "u" 1 4 2 _ "crop" "f" rfl rfl (by decide)

/-- C4: decoding `data:image/png;base64,aGVsbG8=` yields extension hint
`png` and the bytes of `hello`; every input without the data-URL shape is
rejected by the decoder's `Invalid base64 string` throw, and at the route
level the example `not-a-data-url` answers 400 `Invalid base64 image data`. -/
theorem C4_inline_decoding
    (s filename fn₂ fn₃ : String) (store : List Photo) (u ty : String)
    (pid now freshEid : Nat) (photo : Photo)
    (hshape : ¬ isDataUrlShape s)
    (hfind : findById store pid = some photo)
    (hown : photo.owner = u)
    (hty : ty ≠ "") :
    saveBase64Image "data:image/png;base64,aGVsbG8=" filename
      = .ok ⟨"png", [104, 101, 108, 108, 111],
          "/uploads/" ++ filename ++ ".png"⟩
    ∧ b64decode "aGVsbG8=" = [104, 101, 108, 108, 111]
    ∧ saveBase64Image s fn₂ = .error "Invalid base64 string"
    ∧ patchEdit store u pid (some ty) (some "not-a-data-url") fn₃ now
        freshEid = (.invalidInput "Invalid base64 image data", store) := by
  have hassoc : ∀ a b c : String, (a ++ b) ++ c = a ++ (b ++ c) :=
    fun a b c => String.ext (by simp [String.data_append, List.append_assoc])
  refine ⟨?_, by decide, ?_, ?_⟩
  · have hdot : ("." ++ "png" : String) = ".png" := rfl
    unfold saveBase64Image
    rw [show dataUrlMatch "data:image/png;base64,aGVsbG8="
      = some ("image/png", "aGVsbG8=") from rfl]
    show Except.ok
        (⟨"png", [104, 101, 108, 108, 111],
          "/uploads/" ++ filename ++ "." ++ "png"⟩ : SavedImage) = _
    rw [hassoc, hdot]
  · unfold saveBase64Image
    cases h : dataUrlMatch s with
    | none => rfl
    | some pr =>
        obtain ⟨mt, payload⟩ := pr
        exact absurd (shape_of_match h) hshape
  · have hownu : (photo.owner == u) = true := by simp [hown]
    have h1 : jsFalsy (some ty) = false := by simp [jsFalsy, hty]
    unfold patchEdit
    rw [h1]
    rw [if_neg (by simp [jsFalsy])]
    rw [hfind]
    simp only [Option.getD_some, hownu, if_true]
    rw [if_neg (by decide)]

/-- Closed instance of C4 with `s = not-a-data-url` and a one-photo store. -/
theorem C4_inline_decoding_witness :
    saveBase64Image "data:image/png;base64,aGVsbG8=" "f"
      = .ok ⟨"png", [104, 101, 108, 108, 111],
          "/uploads/" ++ "f" ++ ".png"⟩
    ∧ b64decode "aGVsbG8=" = [104, 101, 108, 108, 111]
    ∧ saveBase64Image "not-a-data-url" "g" = .error "Invalid base64 string"
    ∧ patchEdit [⟨1, "u", "/uploads/a.png", [], 0⟩] "u" 1 (some "crop")
        (some "not-a-data-url") "h" 0 2
      = (.invalidInput "Invalid base64 image data",
         [⟨1, "u", "/uploads/a.png", [], 0⟩]) :=
  C4_inline_decoding "not-a-data-url" "f" "g" "h" _ "u" "crop" 1 0 2 _
    (not_shape_of_take5 (by decide)) rfl rfl (by decide)

/-- C5 counterexample: on an owned photo, the payload `data:x` starts with
`data:` but fails the full data-URL shape; the decoder's throw is caught by
the route's catch-all, which answers 500 — not the 400 the claim requires. -/
theorem C5_counterexample :
    patchEdit [⟨1, "u", "/uploads/a.png", [], 0⟩] "u" 1 (some "crop")
        (some "data:x") "f" 0 2
      = (.serverError, [⟨1, "u", "/uploads/a.png", [], 0⟩])
    ∧ EditResult.status .serverError = 500
    ∧ EditResult.status (.invalidInput "Invalid base64 image data") = 400 :=
  ⟨rfl, rfl, rfl⟩

/-- C5 as amended: a payload not starting with `data:` answers 400
`Invalid base64 image data`; a payload starting with `data:` but failing
the full `data:<media-type>;base64,<payload>` regex answers 500
(StoreFailure), the decoder's throw being caught by the route's catch-all;
and a payload matching the regex never fails on its base64 content — the
decode is lenient and total, so the edit succeeds. -/
theorem C5_amended_malformed_payloads
    (store : List Photo) (u : String) (pid now freshEid : Nat)
    (photo : Photo) (ty b64 filename : String) (mt payload : String)
    (hfind : findById store pid = some photo)
    (hown : photo.owner = u)
    (hty : ty ≠ "") (hb64 : b64 ≠ "") :
    (b64.data.take 5 ≠ ("data:").data →
      patchEdit store u pid (some ty) (some b64) filename now freshEid
        = (.invalidInput "Invalid base64 image data", store))
    ∧ (dataUrlMatch b64 = none → b64.data.take 5 = ("data:").data →
      patchEdit store u pid (some ty) (some b64) filename now freshEid
        = (.serverError, store))
    ∧ (dataUrlMatch b64 = some (mt, payload) →
      patchEdit store u pid (some ty) (some b64) filename now freshEid
        = (.ok (pushEdit photo ⟨freshEid, ty,
            "/uploads/" ++ filename ++ "." ++ jsIndex1 (splitSlash mt.data),
            now⟩),
           saveDoc store (pushEdit photo ⟨freshEid, ty,
            "/uploads/" ++ filename ++ "." ++ jsIndex1 (splitSlash mt.data),
            now⟩))) := by
  have hownu : (photo.owner == u) = true := by simp [hown]
  have h1 : jsFalsy (some ty) = false := by simp [jsFalsy, hty]
  have h2 : jsFalsy (some b64) = false := by simp [jsFalsy, hb64]
  refine ⟨?_, ?_, ?_⟩
  · intro h5n
    unfold patchEdit
    rw [h1, h2]
    rw [if_neg (by simp)]
    rw [hfind]
    simp only [Option.getD_some, hownu, if_true]
    rw [if_neg h5n]
  · intro hnone h5
    have hs : saveBase64Image b64 filename = .error "Invalid base64 string" := by
      unfold saveBase64Image
      rw [hnone]
    unfold patchEdit
    rw [h1, h2]
    rw [if_neg (by simp)]
    rw [hfind]
    simp only [Option.getD_some, hownu, if_true, h5, eq_self_iff_true,
      if_true, hs]
  · intro hm
    have h5 : b64.data.take 5 = ("data:").data := take5_of_match hm
    have hs : saveBase64Image b64 filename
        = .ok ⟨jsIndex1 (splitSlash mt.data), b64decode payload,
            "/uploads/" ++ filename ++ "." ++
              jsIndex1 (splitSlash mt.data)⟩ := by
      unfold saveBase64Image
      rw [hm]
    unfold patchEdit
    rw [h1, h2]
    rw [if_neg (by simp)]
    rw [hfind]
    simp only [Option.getD_some, hownu, if_true, h5, eq_self_iff_true,
      if_true, hs]

/-- Closed instances of the three amended C5 cases: `not-a-data-url` (400),
`data:x` (500), and `data:image/png;base64,!!!!` whose base64 payload has no
decodable character yet succeeds. -/
theorem C5_amended_malformed_payloads_witness :
    patchEdit [⟨1, "u", "/uploads/a.png", [], 0⟩] "u" 1 (some "crop")
        (some "not-a-data-url") "f" 0 2
      = (.invalidInput "Invalid base64 image data",
         [⟨1, "u", "/uploads/a.png", [], 0⟩])
    ∧ patchEdit [⟨1, "u", "/uploads/a.png", [], 0⟩] "u" 1 (some "crop")
        (some "data:x") "f" 0 2
      = (.serverError, [⟨1, "u", "/uploads/a.png", [], 0⟩])
    ∧ patchEdit [⟨1, "u", "/uploads/a.png", [], 0⟩] "u" 1 (some "crop")
        (some "data:image/png;base64,!!!!") "f" 0 2
      = (.ok (pushEdit ⟨1, "u", "/uploads/a.png", [], 0⟩
          ⟨2, "crop",
           "/uploads/" ++ "f" ++ "." ++ jsIndex1 (splitSlash ("image/png").data),
           0⟩),
         saveDoc [⟨1, "u", "/uploads/a.png", [], 0⟩]
           (pushEdit ⟨1, "u", "/uploads/a.png", [], 0⟩
             ⟨2, "crop",
              "/uploads/" ++ "f" ++ "." ++
                jsIndex1 (splitSlash ("image/png").data), 0⟩)) :=
  ⟨(C5_amended_malformed_payloads [⟨1, "u", "/uploads/a.png", [], 0⟩] "u" 1
      0 2 ⟨1, "u", "/uploads/a.png", [], 0⟩ "crop" "not-a-data-url" "f"
      "" "" rfl rfl (by decide) (by decide)).1 (by decide),
   (C5_amended_malformed_payloads [⟨1, "u", "/uploads/a.png", [], 0⟩] "u" 1
      0 2 ⟨1, "u", "/uploads/a.png", [], 0⟩ "crop" "data:x" "f"
      "" "" rfl rfl (by decide) (by decide)).2.1 rfl (by decide),
   (C5_amended_malformed_payloads [⟨1, "u", "/uploads/a.png", [], 0⟩] "u" 1
      0 2 ⟨1, "u", "/uploads/a.png", [], 0⟩ "crop"
      "data:image/png;base64,!!!!" "f" "image/png" "!!!!" rfl rfl
      (by decide) (by decide)).2.2 rfl⟩

end PhotoEditor
